import Mathlib

/-!
Verification of the netmachines core against its specification.

The definitions below are a shallow embedding of the Rust sources:
`src/next.rs` (the Next/Intent merge protocol), `src/net/machines.rs`
(TransportMachine and ServerMachine), `src/machines.rs` (RequestMachine)
and `src/sync.rs` (the coalesced-wakeup duct and the trigger).

Time (`rotor::Time`) and durations are modelled as natural numbers;
`scope.now() + duration` becomes addition and the minimum of deadlines is
`min` on naturals.  Handlers are type parameters in the source; here they
are records of functions over an abstract handler-state type.
-/

/-- The error type from `src/error.rs`.  `io::Error` payloads are modelled
as a numeric code. -/
inductive Error where
  | ioError (code : Nat)
  | noSlabSpace
  | timeout
  | tls
  deriving DecidableEq, Repr

/-- The five interests of `src/next.rs` minus `Remove`: in the source, the
`Interest` enum has only these four variants and removal is represented by
the `interest` option of a `Next` being `None`. -/
inductive Interest where
  | wait
  | read
  | write
  | readWrite
  deriving DecidableEq, Repr

/-- A readiness event set from `rotor::EventSet` (mio): the flags relevant
to this library. -/
structure EventSet where
  isReadable : Bool
  isWritable : Bool
  isError : Bool
  deriving DecidableEq, Repr

/-- `EventSet::none()`. -/
def EventSet.none : EventSet := ⟨false, false, false⟩

/-- `EventSet::readable()`. -/
def EventSet.readable : EventSet := ⟨true, false, false⟩

/-- `EventSet::writable()`. -/
def EventSet.writable : EventSet := ⟨false, true, false⟩

/-- `Next<T>` from `src/next.rs`: an optional interest carrying the payload
`T` (the handler, in the machines) and an optional relative timeout.
`interest = none` is `Next::remove()`. -/
structure Next (T : Type) where
  interest : Option (Interest × T)
  timeout : Option Nat
  deriving DecidableEq, Repr

/-- `Next::wait(t)`. -/
def Next.wait {T : Type} (t : T) : Next T := ⟨some (Interest.wait, t), none⟩

/-- `Next::read(t)`. -/
def Next.read {T : Type} (t : T) : Next T := ⟨some (Interest.read, t), none⟩

/-- `Next::write(t)`. -/
def Next.write {T : Type} (t : T) : Next T := ⟨some (Interest.write, t), none⟩

/-- `Next::read_and_write(t)`. -/
def Next.readAndWrite {T : Type} (t : T) : Next T :=
  ⟨some (Interest.readWrite, t), none⟩

/-- `Next::remove()`. -/
def Next.remove {T : Type} : Next T := ⟨none, none⟩

/-- `Next::timeout(self, duration)`: attach a relative timeout. -/
def Next.withTimeout {T : Type} (n : Next T) (duration : Nat) : Next T :=
  { n with timeout := some duration }

/-- `Intent` from `src/next.rs`: the accumulated interest and an optional
absolute deadline. -/
structure Intent where
  interest : Interest
  deadline : Option Nat
  deriving DecidableEq, Repr

/-- The interest join performed inside `Intent::merge` (`src/next.rs`,
lines 112–118); the match arms are in source order, first match wins. -/
def Interest.merge : Interest → Interest → Interest
  | Interest.readWrite, _ => Interest.readWrite
  | _, Interest.readWrite => Interest.readWrite
  | Interest.read, Interest.write => Interest.readWrite
  | Interest.write, Interest.read => Interest.readWrite
  | Interest.read, _ => Interest.read
  | _, Interest.read => Interest.read
  | Interest.write, _ => Interest.write
  | _, Interest.write => Interest.write
  | Interest.wait, Interest.wait => Interest.wait

/-- `Intent::merge` from `src/next.rs` (lines 107–131): fold a `Next` into
the intent at moment `now`.  Returns `none` exactly when the `Next` is
`Next::remove()`, which in the machines leads to teardown. -/
def Intent.merge {T : Type} (self : Intent) (other : Next T) (now : Nat) :
    Option (Intent × T) :=
  match other.interest with
  | some (i, t) =>
    let interest := Interest.merge self.interest i
    let deadline :=
      match self.deadline, other.timeout with
      | some d, some dur => some (min d (now + dur))
      | none, some dur => some (now + dur)
      | d, none => d
    some (⟨interest, deadline⟩, t)
  | none => none

/-- `Intent::new` from `src/next.rs`: build the initial intent from the
first `Next`. -/
def Intent.new {T : Type} (next : Next T) (now : Nat) : Option (Intent × T) :=
  let dl := next.timeout.map (fun dur => now + dur)
  match next.interest with
  | some (i, t) => some (⟨i, dl⟩, t)
  | none => none

/-- `Intent::events` from `src/next.rs`: the event set to register for. -/
def Intent.events (i : Intent) : EventSet :=
  match i.interest with
  | Interest.wait => EventSet.none
  | Interest.read => EventSet.readable
  | Interest.write => EventSet.writable
  | Interest.readWrite => ⟨true, true, false⟩

/-- The machine-level fold step: a live machine holds `some (intent,
handler)` and folds each handler answer through `Intent::merge`; a machine
whose intent has become `Remove` is gone (`none`) and folds nothing. -/
def foldMerge {H : Type} (now : Nat) (st : Option (Intent × H)) (n : Next H) :
    Option (Intent × H) :=
  match st with
  | some (i, _) => i.merge n now
  | none => none

/-- C4: `Remove` is absorbing for the intent fold: folding `Next::remove()`
into any state yields the removed state, and once a fold has yielded the
removed state every subsequent fold, whatever the `Next` values, still
yields it. -/
theorem remove_absorbing (H : Type) (now : Nat) (st : Option (Intent × H))
    (ns : List (Next H)) :
    foldMerge now st (Next.remove) = none ∧
    List.foldl (foldMerge now) none ns = none := by
  constructor
  · cases st with
    | none => rfl
    | some p => cases p with
      | mk i h => simp [foldMerge, Intent.merge, Next.remove]
  · induction ns with
    | nil => rfl
    | cons n ns ih => simpa [foldMerge] using ih

/-- C5: the interest join of `Intent::merge` is a commutative idempotent
join in which `Read ⊔ Write = ReadWrite` either way, `ReadWrite` absorbs
`Read` and `Write`, and `Wait` is the identity. -/
theorem interest_join_properties (a b : Interest) :
    Interest.merge a b = Interest.merge b a ∧
    Interest.merge a a = a ∧
    Interest.merge Interest.read Interest.write = Interest.readWrite ∧
    Interest.merge Interest.write Interest.read = Interest.readWrite ∧
    Interest.merge Interest.readWrite Interest.read = Interest.readWrite ∧
    Interest.merge Interest.readWrite Interest.write = Interest.readWrite ∧
    Interest.merge Interest.wait a = a ∧
    Interest.merge a Interest.wait = a := by
  cases a <;> cases b <;> decide

/-- C6: deadline arithmetic of `Intent::merge`: whenever the fold keeps the
machine alive, the resulting deadline is `min d0 (now + t)` when both the
old deadline `d0` and a new timeout `t` are present, `now + t` when only
the timeout is present, the old deadline unchanged when no timeout is
supplied — and consequently a fold never extends a present deadline. -/
theorem merge_deadline_spec (H : Type) (i0 : Intent) (n : Next H) (now : Nat)
    (p : Interest × H) (hp : n.interest = some p) :
    ∃ r : Intent × H, i0.merge n now = some r ∧
      (∀ d0 t, i0.deadline = some d0 → n.timeout = some t →
        r.1.deadline = some (min d0 (now + t))) ∧
      (∀ t, i0.deadline = none → n.timeout = some t →
        r.1.deadline = some (now + t)) ∧
      (n.timeout = none → r.1.deadline = i0.deadline) ∧
      (∀ d0, i0.deadline = some d0 →
        ∃ d1, r.1.deadline = some d1 ∧ d1 ≤ d0) := by
  refine ⟨?_, ?_, ?_, ?_, ?_, ?_⟩
  · exact (⟨Interest.merge i0.interest p.1,
      match i0.deadline, n.timeout with
      | some d, some dur => some (min d (now + dur))
      | none, some dur => some (now + dur)
      | d, none => d⟩, p.2)
  · simp [Intent.merge, hp]
  · intro d0 t h0 ht
    simp [h0, ht]
  · intro t h0 ht
    simp [h0, ht]
  · intro ht
    simp [ht]
  · intro d0 h0
    cases ht : n.timeout with
    | none => exact ⟨d0, by simp [h0, ht], le_refl d0⟩
    | some t =>
      exact ⟨min d0 (now + t), by simp [h0, ht], min_le_left _ _⟩

/-- C6 witness: a concrete fold with both a pending deadline and a fresh
timeout present yields the minimum. -/
theorem merge_deadline_spec_witness :
    ∃ r : Intent × Unit,
      Intent.merge ⟨Interest.read, some 10⟩ (Next.withTimeout (Next.write ()) 3)
        5 = some r ∧ r.1.deadline = some 8 := by
  obtain ⟨r, hr, hboth, -, -, -⟩ :=
    merge_deadline_spec Unit ⟨Interest.read, some 10⟩
      (Next.withTimeout (Next.write ()) 3) 5 (Interest.write, ()) rfl
  exact ⟨r, hr, by simpa using hboth 10 3 rfl rfl⟩

/-- The directional block condition from `src/sockets/mod.rs` (`Blocked`). -/
inductive Blocked where
  | read
  | write
  deriving DecidableEq, Repr

/-- The observable state of a transport socket (`Transport` in
`src/sockets/mod.rs`): a pending socket-level error, as returned once by
`take_socket_error`, and the current directional block condition. -/
structure Sock where
  socketError : Option Error
  blocked : Option Blocked
  deriving DecidableEq, Repr

/-- `Transport::take_socket_error`: yields the pending error, if any, and
clears it. -/
def Sock.takeSocketError (s : Sock) : Option Error × Sock :=
  (s.socketError, { s with socketError := none })

/-- The transport handler interface used by `TransportMachine` in
`src/net/machines.rs`: each callback consumes the handler state and
returns a `Next` carrying the successor handler state; the readable and
writable callbacks also receive and may mutate the socket. -/
structure THandler (H : Type) where
  error : H → Error → Next H
  readable : H → Sock → Next H × Sock
  writable : H → Sock → Next H × Sock
  wakeup : H → Next H

/-- `TransportMachine` from `src/net/machines.rs`: one socket, one handler
state, the handler's last intent. -/
structure TransportMachine (H : Type) where
  sock : Sock
  handler : H
  intent : Intent
  deriving DecidableEq, Repr

/-- `TransportMachine::make`. -/
def TransportMachine.make {H : Type} (sock : Sock) (handler : H)
    (intent : Intent) : TransportMachine H :=
  ⟨sock, handler, intent⟩

/-- The callbacks a `TransportMachine` can route into its handler, recorded
as an observable trace.  `onRemove` is in the alphabet because the handler
trait of `src/handlers.rs` declares an `on_remove` teardown hook; the trace
shows whether the machines ever emit it. -/
inductive CallEvent where
  | onError (err : Error)
  | onRead
  | onWrite
  | onWakeup
  | onRemove
  deriving DecidableEq, Repr

/-- The outcome of `TransportMachine::next` (`src/net/machines.rs`, lines
103–127): the event set handed to `scope.reregister` and the response —
the unchanged machine plus the intent's deadline, if any. -/
structure NextResult (H : Type) where
  registered : EventSet
  machine : TransportMachine H
  deadline : Option Nat
  deriving DecidableEq, Repr

/-- `TransportMachine::next` from `src/net/machines.rs` (lines 103–114):
reregister for the socket-reported blocked direction when one is present,
else for the intent's events, and respond with the intent's deadline. -/
def TransportMachine.next {H : Type} (m : TransportMachine H) : NextResult H :=
  let events :=
    match m.sock.blocked with
    | some Blocked.read => EventSet.readable
    | some Blocked.write => EventSet.writable
    | none => m.intent.events
  ⟨events, m, m.intent.deadline⟩

/-- The write half of `TransportMachine::ready` (source lines 181–190): if
the (possibly block-substituted) events include writable, dispatch
`writable` on the handler and fold; teardown on `Remove`; otherwise fall
through to `next`. -/
def TransportMachine.readyWrite {H : Type} (hd : THandler H)
    (m : TransportMachine H) (events : EventSet) (now : Nat)
    (tr : List CallEvent) : Option (NextResult H) × List CallEvent :=
  if events.isWritable then
    match hd.writable m.handler m.sock with
    | (next, sock) =>
      match m.intent.merge next now with
      | some (intent, handler) =>
        (some (TransportMachine.next (TransportMachine.make sock handler intent)),
          tr ++ [CallEvent.onWrite])
      | none => (none, tr ++ [CallEvent.onWrite])
  else (some (TransportMachine.next m), tr)

/-- The dispatch part of `TransportMachine::ready` (source lines 161–190):
substitute the handler-requested events while the socket reports a block,
then dispatch read before write, tearing down as soon as a fold yields
`Remove`. -/
def TransportMachine.readyDispatch {H : Type} (hd : THandler H)
    (m : TransportMachine H) (events : EventSet) (now : Nat) :
    Option (NextResult H) × List CallEvent :=
  let events := if m.sock.blocked.isSome then m.intent.events else events
  if events.isReadable then
    match hd.readable m.handler m.sock with
    | (next, sock) =>
      match m.intent.merge next now with
      | some (intent, handler) =>
        TransportMachine.readyWrite hd
          (TransportMachine.make sock handler intent) events now
          [CallEvent.onRead]
      | none => (none, [CallEvent.onRead])
  else TransportMachine.readyWrite hd m events now []

/-- `TransportMachine::ready` from `src/net/machines.rs` (lines 145–191):
when the delivered events include the error flag and the socket holds a
pending error, route it through the handler's error callback and return —
re-registering via `next` if the fold keeps the machine, tearing down
(`Response::done()`) if it yields `Remove`; otherwise dispatch read and
write.  The second component is the trace of handler callbacks invoked. -/
def TransportMachine.ready {H : Type} (hd : THandler H)
    (m : TransportMachine H) (events : EventSet) (now : Nat) :
    Option (NextResult H) × List CallEvent :=
  if events.isError then
    match m.sock.takeSocketError with
    | (some err, sock) =>
      match m.intent.merge (hd.error m.handler err) now with
      | some (intent, handler) =>
        (some (TransportMachine.next (TransportMachine.make sock handler intent)),
          [CallEvent.onError err])
      | none => (none, [CallEvent.onError err])
    | (none, sock) =>
      TransportMachine.readyDispatch hd
        (TransportMachine.make sock m.handler m.intent) events now
  else TransportMachine.readyDispatch hd m events now

/-- C9: the post-dispatch reregistration of `TransportMachine::next`
registers for the socket-reported blocked direction when one is present —
readable when read-blocked, writable when write-blocked — and for the
events derived from the intent only when no block is reported; the
override touches nothing else: the machine, with its stored intent, and
the responded deadline are unchanged. -/
theorem blocked_override_registration (H : Type) (m : TransportMachine H) :
    (m.sock.blocked = some Blocked.read →
      (TransportMachine.next m).registered = EventSet.readable) ∧
    (m.sock.blocked = some Blocked.write →
      (TransportMachine.next m).registered = EventSet.writable) ∧
    (m.sock.blocked = none →
      (TransportMachine.next m).registered = m.intent.events) ∧
    (TransportMachine.next m).machine = m ∧
    (TransportMachine.next m).deadline = m.intent.deadline := by
  refine ⟨fun h => ?_, fun h => ?_, fun h => ?_, rfl, rfl⟩ <;>
    simp [TransportMachine.next, h]

/-- C9 witness: a write-blocked socket whose handler last asked for read
interest with a pending deadline is reregistered for writable while the
machine and its deadline stay put. -/
theorem blocked_override_registration_witness :
    (TransportMachine.next
        (⟨⟨none, some Blocked.write⟩, (), ⟨Interest.read, some 7⟩⟩ :
          TransportMachine Unit)).registered = EventSet.writable ∧
    (TransportMachine.next
        (⟨⟨none, some Blocked.write⟩, (), ⟨Interest.read, some 7⟩⟩ :
          TransportMachine Unit)).deadline = some 7 := by
  have h := blocked_override_registration Unit
    ⟨⟨none, some Blocked.write⟩, (), ⟨Interest.read, some 7⟩⟩
  exact ⟨h.2.1 rfl, h.2.2.2.2⟩

/-- A handler whose readable callback answers `Next::remove()`; used to
exercise the teardown path of `TransportMachine::ready`. -/
def removeOnReadHandler : THandler Unit :=
  { error := fun _ _ => Next.remove,
    readable := fun _ s => (Next.remove, s),
    writable := fun _ s => (Next.remove, s),
    wakeup := fun _ => Next.wait () }

/-- C1: teardown without `on_remove`.  A readable delivery whose `on_read`
answer is `Next::remove()` makes `TransportMachine::ready` drop the
machine (`Response::done()`), with a callback trace consisting of the read
callback only: the `on_remove` hook declared and documented in
`src/handlers.rs` is never invoked and the socket is never handed to the
handler. -/
theorem ready_remove_drops_handler_without_on_remove :
    TransportMachine.ready removeOnReadHandler
        (⟨⟨none, none⟩, (), ⟨Interest.read, none⟩⟩ : TransportMachine Unit)
        EventSet.readable 0 = (none, [CallEvent.onRead]) ∧
    CallEvent.onRemove ∉
      (TransportMachine.ready removeOnReadHandler
          (⟨⟨none, none⟩, (), ⟨Interest.read, none⟩⟩ : TransportMachine Unit)
          EventSet.readable 0).2 := by
  constructor
  · rfl
  · decide

/-- A handler whose error callback answers `Next::read()` — explicitly not
`Next::remove()` — while the other callbacks answer benignly. -/
def readOnErrorHandler : THandler Unit :=
  { error := fun _ _ => Next.read (),
    readable := fun _ s => (Next.read (), s),
    writable := fun _ s => (Next.write (), s),
    wakeup := fun _ => Next.wait () }

/-- C3 counterexample: a delivery flagged readable and error, on a socket
with a pending error, whose error fold does not yield `Remove`, still
dispatches no read callback: handling a pending socket error ends the
tick's dispatch even though the machine survives, refuting both "then, if
the delivered readiness includes readable, on_read is invoked" and "only a
fold yielding Remove stops the remaining dispatch". -/
theorem socket_error_suppresses_read_dispatch :
    (TransportMachine.ready readOnErrorHandler
        (⟨⟨some Error.timeout, none⟩, (), ⟨Interest.read, none⟩⟩ :
          TransportMachine Unit) ⟨true, false, true⟩ 0).2 =
      [CallEvent.onError Error.timeout] ∧
    CallEvent.onRead ∉
      (TransportMachine.ready readOnErrorHandler
          (⟨⟨some Error.timeout, none⟩, (), ⟨Interest.read, none⟩⟩ :
            TransportMachine Unit) ⟨true, false, true⟩ 0).2 ∧
    (TransportMachine.ready readOnErrorHandler
        (⟨⟨some Error.timeout, none⟩, (), ⟨Interest.read, none⟩⟩ :
          TransportMachine Unit) ⟨true, false, true⟩ 0).1.isSome = true := by
  refine ⟨rfl, ?_, rfl⟩
  decide

/-- C3 as the code has it: within one delivered readiness event, the
socket-error check runs first and, when a pending socket error is routed
through the error callback, its fold alone decides the tick (teardown
exactly when it yields `Remove`) with no read or write dispatch; when no
socket error is routed, read dispatch precedes write dispatch on the
(block-substituted) events, a read dispatched exactly when they include
readable, a write only when they include writable, and a `Remove`-yielding
read fold is the only thing that suppresses an otherwise due write
dispatch. -/
theorem ready_dispatch_order_amended (H : Type) (hd : THandler H)
    (m : TransportMachine H) (events : EventSet) (now : Nat) :
    (∀ err, events.isError = true → m.sock.socketError = some err →
      (TransportMachine.ready hd m events now).2 = [CallEvent.onError err] ∧
      ((TransportMachine.ready hd m events now).1 = none ↔
        m.intent.merge (hd.error m.handler err) now = none)) ∧
    (events.isError = false ∨ m.sock.socketError = none →
      ((TransportMachine.ready hd m events now).2 = [] ∨
       (TransportMachine.ready hd m events now).2 = [CallEvent.onRead] ∨
       (TransportMachine.ready hd m events now).2 = [CallEvent.onWrite] ∨
       (TransportMachine.ready hd m events now).2 =
         [CallEvent.onRead, CallEvent.onWrite]) ∧
      (CallEvent.onRead ∈ (TransportMachine.ready hd m events now).2 ↔
        (if m.sock.blocked.isSome then m.intent.events else events).isReadable
          = true) ∧
      (CallEvent.onWrite ∈ (TransportMachine.ready hd m events now).2 →
        (if m.sock.blocked.isSome then m.intent.events else events).isWritable
          = true) ∧
      ((if m.sock.blocked.isSome then m.intent.events else events).isWritable
          = true →
        (CallEvent.onWrite ∉ (TransportMachine.ready hd m events now).2 ↔
          ((if m.sock.blocked.isSome then m.intent.events else events).isReadable
              = true ∧
            m.intent.merge (hd.readable m.handler m.sock).1 now = none)))) := by
  obtain ⟨⟨e, b⟩, h, i⟩ := m
  constructor
  · intro err he hs
    simp only at hs
    subst hs
    rcases hm : Intent.merge i (hd.error h err) now with - | p <;>
      simp [TransportMachine.ready, Sock.takeSocketError, he, hm]
  · intro h2
    have hready : TransportMachine.ready hd ⟨⟨e, b⟩, h, i⟩ events now =
        TransportMachine.readyDispatch hd ⟨⟨e, b⟩, h, i⟩ events now := by
      rcases h2 with he | hs
      · simp [TransportMachine.ready, he]
      · simp only at hs
        subst hs
        by_cases he : events.isError <;>
          simp [TransportMachine.ready, Sock.takeSocketError,
            TransportMachine.make, he]
    rw [hready]
    rcases h1 : hd.readable h ⟨e, b⟩ with ⟨n1, s1⟩
    by_cases hr :
        (if (b.isSome : Bool) then i.events else events).isReadable <;>
      by_cases hw :
        (if (b.isSome : Bool) then i.events else events).isWritable
    · rcases hm : Intent.merge i n1 now with - | ⟨i1, h1'⟩
      · simp [TransportMachine.readyDispatch, TransportMachine.readyWrite,
          TransportMachine.make, h1, hr, hw, hm]
      · rcases h2' : hd.writable h1' s1 with ⟨n2, s2⟩
        rcases hm2 : Intent.merge i1 n2 now with - | p2 <;>
          simp [TransportMachine.readyDispatch, TransportMachine.readyWrite,
            TransportMachine.make, h1, hr, hw, hm, h2', hm2]
    · rcases hm : Intent.merge i n1 now with - | ⟨i1, h1'⟩ <;>
        simp [TransportMachine.readyDispatch, TransportMachine.readyWrite,
          TransportMachine.make, h1, hr, hw, hm]
    · rcases h2' : hd.writable h ⟨e, b⟩ with ⟨n2, s2⟩
      rcases hm2 : Intent.merge i n2 now with - | p2 <;>
        simp [TransportMachine.readyDispatch, TransportMachine.readyWrite,
          TransportMachine.make, hr, hw, h2', hm2]
    · simp [TransportMachine.readyDispatch, TransportMachine.readyWrite,
        TransportMachine.make, hr, hw]

/-- C3 witness: the amended theorem applied to a concrete machine with a
pending socket error under a readable-and-error delivery: the trace is the
error callback alone and the machine survives. -/
theorem ready_dispatch_order_amended_witness :
    (TransportMachine.ready readOnErrorHandler
        (⟨⟨some Error.tls, none⟩, (), ⟨Interest.read, none⟩⟩ :
          TransportMachine Unit) ⟨true, false, true⟩ 0).2 =
      [CallEvent.onError Error.tls] := by
  exact ((ready_dispatch_order_amended Unit readOnErrorHandler
    ⟨⟨some Error.tls, none⟩, (), ⟨Interest.read, none⟩⟩
    ⟨true, false, true⟩ 0).1 Error.tls rfl rfl).1

/-- A rotor response of a server machine from `src/net/machines.rs`:
keep the machine, keep it and spawn a seed, or be done. -/
inductive SResponse (L Seed : Type) where
  | ok (l : L)
  | spawn (l : L) (seed : Seed)
  | done
  deriving DecidableEq, Repr

/-- `ServerListener` from `src/net/machines.rs`: the accept socket — its
successive `accept()` outcomes modelled as a stream, each `Ok(Some _)`,
`Ok(None)` or `Err _` — plus the accept handler's two callbacks: `accept`,
answering an optional seed for a peer address, and `error`, whose `Err(())`
answer asks for termination.  The shutdown trigger receiver plays no role
in `accept` and is omitted. -/
structure ServerListener (TSock Addr Seed : Type) where
  sock : List (Except Error (Option (TSock × Addr)))
  acceptFn : Addr → Option Seed
  errorFn : Error → Except Unit Unit

/-- `ServerMachine::accept` from `src/net/machines.rs` (lines 318–339):
take one `accept()` outcome; on a new connection offer it to the accept
handler and spawn iff it returns a seed; on nothing-pending stay put; on
an accept error consult the handler's error callback — `Ok(())` keeps the
listener, `Err(())` is `Response::done()`. -/
def ServerMachine.accept {TSock Addr Seed : Type}
    (lsnr : ServerListener TSock Addr Seed) :
    SResponse (ServerListener TSock Addr Seed) (TSock × Seed) :=
  match lsnr.sock with
  | [] => SResponse.ok lsnr
  | outcome :: rest =>
    match outcome with
    | Except.ok (some (sock, addr)) =>
      match lsnr.acceptFn addr with
      | some seed => SResponse.spawn { lsnr with sock := rest } (sock, seed)
      | none => SResponse.ok { lsnr with sock := rest }
    | Except.ok none => SResponse.ok { lsnr with sock := rest }
    | Except.error err =>
      match lsnr.errorFn err with
      | Except.ok _ => SResponse.ok { lsnr with sock := rest }
      | Except.error _ => SResponse.done

/-- A listener whose accept handler's error callback answers `Err(())`. -/
def terminatingListener : ServerListener Unit Unit Unit :=
  { sock := [Except.error (Error.ioError 0)],
    acceptFn := fun _ => some (),
    errorFn := fun _ => Except.error () }

/-- C2 counterexample: an accept-level error is not unconditionally
non-fatal — when the accept handler's error callback answers `Err(())`,
`ServerMachine::accept` returns `Response::done()` and the listener is
terminated rather than surviving to accept further connections. -/
theorem accept_error_can_kill_listener :
    ServerMachine.accept terminatingListener =
      SResponse.done := rfl

/-- C2 as the code has it: an accept-level error is routed to the accept
handler's error callback; when the callback answers `Ok(())`, the listener
survives unchanged — same accept and error callbacks, ready for the
remaining deliveries — and keeps accepting; when it answers `Err(())`, the
listener terminates.  An accept error alone never removes the listener
without the handler electing to. -/
theorem accept_error_routed_to_handler (TSock Addr Seed : Type)
    (lsnr : ServerListener TSock Addr Seed) (err : Error)
    (rest : List (Except Error (Option (TSock × Addr))))
    (hs : lsnr.sock = Except.error err :: rest) :
    (lsnr.errorFn err = Except.ok () →
      ServerMachine.accept lsnr = SResponse.ok { lsnr with sock := rest }) ∧
    (lsnr.errorFn err = Except.error () →
      ServerMachine.accept lsnr = SResponse.done) := by
  constructor <;> intro he <;> simp [ServerMachine.accept, hs, he]

/-- C2 witness: a listener whose error callback answers `Ok(())` survives a
concrete accept error with its remaining outcomes intact. -/
theorem accept_error_routed_to_handler_witness :
    ServerMachine.accept
        ({ sock := [Except.error Error.tls, Except.ok none],
           acceptFn := fun _ => some (),
           errorFn := fun _ => Except.ok () } :
          ServerListener Unit Unit Unit) =
      SResponse.ok
        { sock := [Except.ok none],
          acceptFn := fun _ => some (),
          errorFn := fun _ => Except.ok () } := by
  exact (accept_error_routed_to_handler Unit Unit Unit _ Error.tls
    [Except.ok none] rfl).1 rfl

/-- The two flavors of `RequestMachine` from `src/machines.rs`: the
request-processing flavor holding its receiver-side state `R`, or a
wrapped inner machine `M`. -/
inductive RMInner (R M : Type) where
  | req (r : R)
  | mach (m : M)
  deriving DecidableEq, Repr

/-- The two flavors of `ServerMachine`: listener or wrapped transport
machine (`ServerInner` in `src/net/machines.rs`). -/
inductive ServerInner (L C : Type) where
  | lsnr (l : L)
  | conn (c : C)
  deriving DecidableEq, Repr

/-- `RequestMachine::ready` from `src/machines.rs` (lines 66–76): delegate
to the wrapped machine's `ready`, given here as `f`; in the
request-processing flavor the source aborts via `unreachable!`, embedded
as `none`. -/
def RequestMachine.ready {R M : Type} (f : M → EventSet → M) :
    RMInner R M → EventSet → Option (RMInner R M)
  | RMInner.req _, _ => none
  | RMInner.mach m, ev => some (RMInner.mach (f m ev))

/-- `RequestMachine::timeout` from `src/machines.rs` (lines 89–98):
delegate to the wrapped machine's `timeout`, given as `f`; in the
request-processing flavor the source aborts via `unreachable!`. -/
def RequestMachine.timeout {R M : Type} (f : M → M) :
    RMInner R M → Option (RMInner R M)
  | RMInner.req _ => none
  | RMInner.mach m => some (RMInner.mach (f m))

/-- `ServerMachine::timeout` from `src/net/machines.rs` (lines 378–385):
delegate to the wrapped transport machine's `timeout`, given as `f`; in
the listening flavor the source aborts via `unreachable!`. -/
def ServerMachine.timeout {L C : Type} (f : C → C) :
    ServerInner L C → Option (ServerInner L C)
  | ServerInner.lsnr _ => none
  | ServerInner.conn c => some (ServerInner.conn (f c))

/-- C10: reactor callbacks that cannot legitimately reach a machine flavor
are partial: a readiness or timeout event delivered to a `RequestMachine`
in its request-processing flavor, and a timeout delivered to a
`ServerMachine` in its listening flavor, have no result — the source
aborts via `unreachable!` there — while the wrapped-machine flavors always
delegate. -/
theorem unreachable_callbacks_partial (R M L C : Type)
    (f : M → EventSet → M) (g : M → M) (k : C → C) (r : R) (l : L)
    (ev : EventSet) (m : M) (c : C) :
    RequestMachine.ready f (RMInner.req r) ev = none ∧
    RequestMachine.timeout g (RMInner.req (M := M) r) = none ∧
    ServerMachine.timeout k (ServerInner.lsnr (C := C) l) = none ∧
    (RequestMachine.ready f (RMInner.mach (R := R) m) ev).isSome = true ∧
    (RequestMachine.timeout g (RMInner.mach (R := R) m)).isSome = true ∧
    (ServerMachine.timeout k (ServerInner.conn (L := L) c)).isSome = true := by
  exact ⟨rfl, rfl, rfl, rfl, rfl, rfl⟩

/-- The shared state of a duct from `src/sync.rs` (lines 57–106), seen
from both halves: the `awake` coalescing flag, the queued items, whether
every sender clone has been dropped, and — as instrumentation — the count
of `notifier.wakeup()` calls fired so far. -/
structure Duct (T : Type) where
  awake : Bool
  queue : List T
  disconnected : Bool
  wakeups : Nat
  deriving DecidableEq, Repr

/-- `DuctSender::send` from `src/sync.rs` (lines 72–80): enqueue the value,
then swap the `awake` flag to true and fire one wakeup only if it was
false. -/
def DuctSender.send {T : Type} (d : Duct T) (v : T) : Duct T :=
  let d := { d with queue := d.queue ++ [v] }
  if d.awake then d else { d with awake := true, wakeups := d.wakeups + 1 }

/-- `DuctReceiver::try_recv` from `src/sync.rs` (lines 97–106): store false
into the `awake` flag, then pop: an item if one is queued, `Ok(None)` when
empty with senders alive, `Err(RecvError)` when empty and disconnected. -/
def DuctReceiver.tryRecv {T : Type} (d : Duct T) :
    Except Unit (Option T) × Duct T :=
  let d := { d with awake := false }
  match d.queue with
  | v :: rest => (Except.ok (some v), { d with queue := rest })
  | [] =>
    if d.disconnected then (Except.error (), d) else (Except.ok none, d)

/-- A batch of sends, in order. -/
def sendBatch {T : Type} (d : Duct T) (vs : List T) : Duct T :=
  vs.foldl DuctSender.send d

/-- Once the `awake` flag is set, further sends leave the flag set and fire
no wakeup. -/
theorem sendBatch_awake_true {T : Type} (vs : List T) (d : Duct T)
    (h : d.awake = true) :
    (sendBatch d vs).awake = true ∧ (sendBatch d vs).wakeups = d.wakeups := by
  induction vs generalizing d with
  | nil => exact ⟨h, rfl⟩
  | cons v vs ih =>
    have hsend : (DuctSender.send d v).awake = true ∧
        (DuctSender.send d v).wakeups = d.wakeups := by
      simp [DuctSender.send, h]
    obtain ⟨ha, hw⟩ := ih (DuctSender.send d v) hsend.1
    exact ⟨ha, by rw [sendBatch] at hw ⊢; simp [List.foldl, hw, hsend.2]⟩

/-- C7: coalesced wakeups of the duct.  From a clear flag, the first send
of a batch fires exactly one wakeup and sets the flag; any send performed
while the flag is set fires none; hence a batch of `1 + n` sends performed
before the receiver drains fires exactly one wakeup in total; and every
`try_recv` — also one that finds the queue empty — clears the flag again,
so the pattern repeats. -/
theorem duct_coalesced_wakeup (T : Type) (d : Duct T) (v : T) (vs : List T) :
    (d.awake = false →
      (DuctSender.send d v).wakeups = d.wakeups + 1 ∧
      (DuctSender.send d v).awake = true) ∧
    (d.awake = true →
      (DuctSender.send d v).wakeups = d.wakeups ∧
      (DuctSender.send d v).awake = true) ∧
    (d.awake = false →
      (sendBatch d (v :: vs)).wakeups = d.wakeups + 1) ∧
    (DuctReceiver.tryRecv d).2.awake = false := by
  refine ⟨fun h => ?_, fun h => ?_, fun h => ?_, ?_⟩
  · constructor <;> simp [DuctSender.send, h]
  · constructor <;> simp [DuctSender.send, h]
  · have h1 : (DuctSender.send d v).awake = true ∧
        (DuctSender.send d v).wakeups = d.wakeups + 1 := by
      constructor <;> simp [DuctSender.send, h]
    have h2 := sendBatch_awake_true vs (DuctSender.send d v) h1.1
    calc (sendBatch d (v :: vs)).wakeups
        = (sendBatch (DuctSender.send d v) vs).wakeups := rfl
      _ = (DuctSender.send d v).wakeups := h2.2
      _ = d.wakeups + 1 := h1.2
  · rcases d with ⟨a, q, disc, w⟩
    cases q with
    | nil => cases disc <;> rfl
    | cons x xs => rfl

/-- C7 witness: three sends from a clear flag fire exactly one wakeup; the
flag is clear again after a drain. -/
theorem duct_coalesced_wakeup_witness :
    (sendBatch (⟨false, [], false, 0⟩ : Duct Nat) [1, 2, 3]).wakeups = 1 ∧
    (DuctReceiver.tryRecv (⟨true, [], false, 0⟩ : Duct Nat)).2.awake
      = false := by
  constructor
  · exact (duct_coalesced_wakeup Nat ⟨false, [], false, 0⟩ 1 [2, 3]).2.2.1 rfl
  · exact (duct_coalesced_wakeup Nat ⟨true, [], false, 0⟩ 0 []).2.2.2

/-- The response of `Req::process_requests` from `src/machines.rs`: keep
waiting with the remaining queue, spawn a seed (the loop returns at the
first successful translation and resumes from `spawned`), or be done. -/
inductive ReqResponse (Request Seed : Type) where
  | ok (queue : List Request)
  | spawn (queue : List Request) (seed : Seed)
  | done
  deriving DecidableEq, Repr

/-- `Req::process_requests` from `src/machines.rs` (lines 128–143).  The
duct receiver is given by its queue and disconnected flag, so that
`rx.try_recv()` yields the head item, `Ok(None)` on an empty connected
queue and `Err(_)` on an empty disconnected one.  Each item is offered to
the request handler `hreq`; a declined item is skipped; an accepted one is
translated by `tr` into a seed — success returns `Response::spawn`,
failure is reported through the handler's error callback (recorded in the
trace) and draining continues. -/
def processRequests {Request Output Seed : Type}
    (hreq : Request → Option Output)
    (tr : Output → Except (Output × Error) Seed) :
    List Request → Bool → List (Output × Error) →
    ReqResponse Request Seed × List (Output × Error)
  | [], disconnected, errs =>
    if disconnected then (ReqResponse.done, errs)
    else (ReqResponse.ok [], errs)
  | request :: rest, disconnected, errs =>
    match hreq request with
    | some output =>
      match tr output with
      | Except.ok seed => (ReqResponse.spawn rest seed, errs)
      | Except.error oe =>
        processRequests hreq tr rest disconnected (errs ++ [oe])
    | none => processRequests hreq tr rest disconnected errs

/-- Helper for C8: `process_requests` answers `Response::done()` only on a
disconnected queue. -/
theorem processRequests_done_sound {Request Output Seed : Type}
    (hreq : Request → Option Output)
    (tr : Output → Except (Output × Error) Seed) (q : List Request)
    (disc : Bool) (errs : List (Output × Error))
    (hdone : (processRequests hreq tr q disc errs).1 = ReqResponse.done) :
    disc = true := by
  induction q generalizing errs with
  | nil =>
    cases disc with
    | true => rfl
    | false => simp [processRequests] at hdone
  | cons x xs ih =>
    rcases hx : hreq x with - | o
    · exact ih _ (by simpa [processRequests, hx] using hdone)
    · rcases ht : tr o with oe | seed
      · exact ih _ (by simpa [processRequests, hx, ht] using hdone)
      · simp [processRequests, hx, ht] at hdone

/-- Helper for C8: a disconnected queue whose requests are all declined or
fail translation is drained to termination. -/
theorem processRequests_done_complete {Request Output Seed : Type}
    (hreq : Request → Option Output)
    (tr : Output → Except (Output × Error) Seed) (q : List Request)
    (errs : List (Output × Error))
    (hall : ∀ x ∈ q, ∀ o, hreq x = some o → ∃ oe, tr o = Except.error oe) :
    (processRequests hreq tr q true errs).1 = ReqResponse.done := by
  induction q generalizing errs with
  | nil => simp [processRequests]
  | cons x xs ih =>
    have hxs : ∀ y ∈ xs, ∀ o, hreq y = some o →
        ∃ oe, tr o = Except.error oe :=
      fun y hy => hall y (List.mem_cons_of_mem x hy)
    rcases hx : hreq x with - | o
    · simpa [processRequests, hx] using ih errs hxs
    · obtain ⟨oe, ht⟩ := hall x (List.mem_cons_self x xs) o hx
      simpa [processRequests, hx, ht] using ih (errs ++ [oe]) hxs

/-- C8: the lifetime and error policy of the request-processing loop.  The
loop answers `Response::done()` only when the queue is disconnected; an
empty drain on a connected queue returns the machine to waiting; a failed
translation is reported through the handler's error callback and draining
continues with the remaining requests; and on a disconnected queue whose
requests are all declined or fail translation the machine terminates. -/
theorem process_requests_lifecycle (Request Output Seed : Type)
    (hreq : Request → Option Output)
    (tr : Output → Except (Output × Error) Seed)
    (q rest : List Request) (r : Request) (disc : Bool)
    (errs : List (Output × Error)) :
    ((processRequests hreq tr q disc errs).1 = ReqResponse.done →
      disc = true) ∧
    (processRequests hreq tr [] false errs = (ReqResponse.ok [], errs)) ∧
    (∀ o oe, hreq r = some o → tr o = Except.error oe →
      processRequests hreq tr (r :: rest) disc errs =
        processRequests hreq tr rest disc (errs ++ [oe])) ∧
    (disc = true →
      (∀ x ∈ q, ∀ o, hreq x = some o → ∃ oe, tr o = Except.error oe) →
      (processRequests hreq tr q disc errs).1 = ReqResponse.done) := by
  refine ⟨processRequests_done_sound hreq tr q disc errs,
    by simp [processRequests], fun o oe ho ht => ?_, fun hd hall => ?_⟩
  · simp [processRequests, ho, ht]
  · subst hd
    exact processRequests_done_complete hreq tr q errs hall

/-- C8 witness: a disconnected queue holding one accepted request whose
translation fails is drained — the failure is reported — and the machine
terminates; an empty connected queue leaves the machine waiting. -/
theorem process_requests_lifecycle_witness :
    processRequests (fun r : Nat => some r)
        (fun o : Nat => (Except.error (o, Error.noSlabSpace) :
          Except (Nat × Error) Unit)) [7] true [] =
      (ReqResponse.done, [(7, Error.noSlabSpace)]) ∧
    processRequests (fun r : Nat => some r)
        (fun o : Nat => (Except.error (o, Error.noSlabSpace) :
          Except (Nat × Error) Unit)) [] false [] =
      (ReqResponse.ok [], []) := by
  have h := process_requests_lifecycle Nat Nat Unit
    (fun r => some r) (fun o => Except.error (o, Error.noSlabSpace))
    [] [] 7 true []
  constructor
  · have hstep := h.2.2.1 7 (7, Error.noSlabSpace) rfl rfl
    rw [hstep]
    rfl
  · exact (process_requests_lifecycle Nat Nat Unit
      (fun r => some r) (fun o => Except.error (o, Error.noSlabSpace))
      [] [] 7 false []).2.1
